import Mathlib

/-!
Verification of the dhcpcd DHCPv4 client core (src/dhcp.c) against its
natural-language specification.  The C data model and operations are
shallowly embedded: byte buffers become `List Nat` (each element a byte
value), machine integers become `Nat`/`Int` with explicit wrapping where
it matters, fallible functions return sum types, and the imperative
option-scanning loops become fuel-indexed structural recursions (the fuel
models the possibility that the C loop does not terminate).

Reads past the end of a fixed-size field (which in C touch adjacent
struct memory) are modelled as reading the byte 0 via `List.getD`; the
theorems that depend on exact byte accounting carry a well-formedness
hypothesis keeping the scan inside the declared field.
-/

namespace Dhcpcd

set_option maxRecDepth 1000000

/-! ### Option codes and protocol constants (src/dhcp.c and RFC 2132) -/

def DHO_PAD : Nat := 0

def DHO_SUBNETMASK : Nat := 1

def DHO_BROADCAST : Nat := 28

def DHO_LEASETIME : Nat := 51

def DHO_OPTIONSOVERLOADED : Nat := 52

def DHO_MESSAGETYPE : Nat := 53

def DHO_SERVERID : Nat := 54

def DHO_RENEWALTIME : Nat := 58

def DHO_REBINDTIME : Nat := 59

def DHO_MESSAGE : Nat := 56

def DHO_END : Nat := 255

/-- Modelled from the spec: DHCP message type codes (spec section 4.2 names
DISCOVER/OFFER/REQUEST/DECLINE/ACK/NAK/RELEASE/INFORM; the numeric values
are the standard RFC 2132 option-53 values, the defines live in the
dhcp.h header which is not part of src/). -/
def DHCP_DISCOVER : Nat := 1

def DHCP_OFFER : Nat := 2

def DHCP_REQUEST : Nat := 3

def DHCP_DECLINE : Nat := 4

def DHCP_ACK : Nat := 5

def DHCP_NAK : Nat := 6

def DHCP_RELEASE : Nat := 7

def DHCP_INFORM : Nat := 8

/-- Magic cookie 0x63825363 (spec section 6; dhcp.h is not in src/). -/
def MAGIC_COOKIE : Nat := 0x63825363

def INADDR_ANY : Nat := 0

def INADDR_BROADCAST : Nat := 0xffffffff

/-- Constant `#define NAKOFF_MAX 60` (src/dhcp.c line 69). -/
def NAKOFF_MAX : Nat := 60

/-- Constant `#define DHCP_MIN_LEASE 20` (src/dhcp.c line 56). -/
def DHCP_MIN_LEASE : Nat := 20

/-! ### Option type tags

Modelled from the spec: the spec (section 3) lists the bit-flag tags
`UINT8 | UINT16 | SINT16 | UINT32 | ADDRIPV4 | STRING | ARRAY | RFC3397 |
RFC3442 | RFC3361 | RFC5969` plus the meta flag `REQUEST`; the numeric
values live in a header that is not part of src/.  Only distinctness of
the bits matters to the code in src/dhcp.c, so we assign consecutive
bits. -/

def UINT8 : Nat := 1

def UINT16 : Nat := 2

def SINT16 : Nat := 4

def UINT32 : Nat := 8

def ADDRIPV4 : Nat := 16

def STRING : Nat := 32

def ARRAY : Nat := 64

def RFC3397 : Nat := 128

def RFC3442 : Nat := 256

def RFC3361 : Nat := 512

def RFC5969 : Nat := 1024

def REQUEST : Nat := 2048

/-- Constant `#define IPV4A ADDRIPV4 | ARRAY` (src/dhcp.c line 65). -/
def IPV4A : Nat := ADDRIPV4 ||| ARRAY

/-- Constant `#define IPV4R ADDRIPV4 | REQUEST` (src/dhcp.c line 66). -/
def IPV4R : Nat := ADDRIPV4 ||| REQUEST

/-- The option table `dhcp_opts` (src/dhcp.c lines 93-189), as pairs
`(option code, type tags)`; the variable-name strings are irrelevant to
the verified behaviour and omitted. -/
def dhcp_opts : List (Nat × Nat) := [
  (1, ADDRIPV4 ||| REQUEST),
  (121, RFC3442),
  (249, RFC3442),
  (33, IPV4A ||| REQUEST),
  (3, IPV4A ||| REQUEST),
  (2, UINT32),
  (4, IPV4A),
  (5, IPV4A),
  (6, IPV4A),
  (7, IPV4A),
  (8, IPV4A),
  (9, IPV4A),
  (10, IPV4A),
  (11, IPV4A),
  (12, STRING),
  (13, UINT16),
  (14, STRING),
  (15, STRING),
  (16, ADDRIPV4),
  (17, STRING),
  (18, STRING),
  (19, UINT8),
  (20, UINT8),
  (21, IPV4A),
  (22, SINT16),
  (23, UINT16),
  (24, UINT32),
  (25, UINT16 ||| ARRAY),
  (26, UINT16),
  (27, UINT8),
  (28, ADDRIPV4 ||| REQUEST),
  (29, UINT8),
  (30, UINT8),
  (31, UINT8),
  (32, ADDRIPV4),
  (34, UINT8),
  (35, UINT32),
  (36, UINT16),
  (37, UINT8),
  (38, UINT32),
  (39, UINT8),
  (40, STRING),
  (41, IPV4A),
  (42, IPV4A),
  (43, STRING),
  (44, IPV4A),
  (45, ADDRIPV4),
  (46, UINT8),
  (47, STRING),
  (48, IPV4A),
  (49, IPV4A),
  (50, ADDRIPV4),
  (51, UINT32 ||| REQUEST),
  (52, UINT8),
  (53, UINT8),
  (54, ADDRIPV4),
  (55, UINT8 ||| ARRAY),
  (56, STRING),
  (57, UINT16),
  (58, UINT32 ||| REQUEST),
  (59, UINT32 ||| REQUEST),
  (64, STRING),
  (65, IPV4A),
  (66, STRING),
  (67, STRING),
  (68, IPV4A),
  (69, IPV4A),
  (70, IPV4A),
  (71, IPV4A),
  (72, IPV4A),
  (73, IPV4A),
  (74, IPV4A),
  (75, IPV4A),
  (76, IPV4A),
  (77, STRING),
  (81, STRING ||| RFC3397),
  (85, IPV4A),
  (86, STRING),
  (87, STRING),
  (88, STRING ||| RFC3397),
  (89, IPV4A),
  (91, UINT32),
  (92, IPV4A),
  (98, STRING),
  (112, IPV4A),
  (113, STRING),
  (114, STRING),
  (118, ADDRIPV4),
  (119, STRING ||| RFC3397),
  (120, STRING ||| RFC3361),
  (212, RFC5969)]

/-- Table lookup: the `for (opt = dhcp_opts; opt->option; opt++)` search
for a matching option code used by `validate_length`. -/
def findOpt (option : Nat) : Option Nat :=
  (dhcp_opts.find? (fun p => p.1 == option)).map Prod.snd

/-- Function `validate_length` (src/dhcp.c lines 216-257).  Returns `none` where
the C function returns -1 (Invalid), otherwise the validated length. -/
def validate_length (option : Nat) (dl : Nat) : Option Nat :=
  if dl = 0 then none
  else
    match findOpt option with
    | none => some dl
    | some t =>
      if t = 0 ∨ t &&& (STRING ||| RFC3442 ||| RFC5969) ≠ 0 then some dl
      else if t &&& ADDRIPV4 ≠ 0 ∧ t &&& ARRAY ≠ 0 then
        if dl < 4 then none else some (dl - dl % 4)
      else
        let sz : Nat :=
          if t &&& UINT8 ≠ 0 then 1
          else if t &&& UINT16 ≠ 0 then 2
          else if t &&& (UINT32 ||| ADDRIPV4) ≠ 0 then 4
          else 0
        if sz = 0 then some dl
        else if dl < sz then none else some sz

/-- The claim's classification of a "scalar-typed" tag (u32/u16/u8, and a
single IPv4 address, declared widths 4/2/1): no array, no
variable-length encoding.  The width order mirrors the sequential
assignments in src/dhcp.c lines 242-248, where a later `if` overrides an
earlier one. -/
def scalarWidth (t : Nat) : Option Nat :=
  if t = 0 then none
  else if t &&& (STRING ||| RFC3442 ||| RFC5969) ≠ 0 then none
  else if t &&& ARRAY ≠ 0 then none
  else if t &&& UINT8 ≠ 0 then some 1
  else if t &&& UINT16 ≠ 0 then some 2
  else if t &&& (UINT32 ||| ADDRIPV4) ≠ 0 then some 4
  else none

/-! ### The DHCP message and the option scan -/

/-- Modelled from the spec: field sizes of `struct dhcp_message` (spec
section 3: fixed 236-byte BOOTP header containing a 16-byte `chaddr`, a
64-byte `sname` and a 128-byte `file`, then the 4-byte cookie and an
options area of about 312 bytes; the struct itself is declared in the
dhcp.h header, which is not part of src/). -/
def SERVERNAME_LEN : Nat := 64

def BOOTFILE_LEN : Nat := 128

def OPTIONS_LEN : Nat := 312

/-- Truncate or zero-pad a byte list to exactly `n` bytes, the way a
fixed-size C array field holds it. -/
def padTo (n : Nat) (l : List Nat) : List Nat :=
  l.take n ++ List.replicate (n - l.length) 0

/-- Structure `struct dhcp_message`.  Multi-byte integers are stored here as their
numeric (big-endian wire) value; byte-order conversions such as `ntohl`
are identities of this representation. -/
structure DhcpMessage where
  op : Nat := 0
  hwtype : Nat := 0
  hwlen : Nat := 0
  hops : Nat := 0
  xid : Nat := 0
  secs : Nat := 0
  flags : Nat := 0
  ciaddr : Nat := 0
  yiaddr : Nat := 0
  siaddr : Nat := 0
  giaddr : Nat := 0
  chaddr : List Nat := []
  servername : List Nat := []
  bootfile : List Nat := []
  cookie : Nat := 0
  options : List Nat := []
  deriving DecidableEq

def optionsArea (m : DhcpMessage) : List Nat := padTo OPTIONS_LEN m.options

def bootfileArea (m : DhcpMessage) : List Nat := padTo BOOTFILE_LEN m.bootfile

def servernameArea (m : DhcpMessage) : List Nat := padTo SERVERNAME_LEN m.servername

/-- State of the `get_option` scanning loop (src/dhcp.c lines 272-279):
`buf` is the content of `opt_buffer` so far and `bufUsed` whether `bp`
has been set; `seg` is the current `(area, op index, ol)` triple
(`op`/`ol` in the C, remembering which field's bytes the pointer is
into); `bl` the accumulated length; `overl` the overload byte. -/
structure ScanAcc where
  buf : List Nat := []
  bufUsed : Bool := false
  seg : Option (List Nat × Nat × Nat) := none
  bl : Nat := 0
  overl : Nat := 0
  deriving DecidableEq

/-- Bytes of the remembered segment; a read past the end of the area is
clipped (in C it would read adjacent struct memory). -/
def segBytes : Option (List Nat × Nat × Nat) → List Nat
  | some (a, i, l) => (a.drop i).take l
  | none => []

/-- All bytes `get_option` has collected: the `opt_buffer` content plus
the pending segment. -/
def collectedOf (acc : ScanAcc) : List Nat :=
  acc.buf ++ segBytes acc.seg

/-- The `if (o == opt)` block of `get_option` (src/dhcp.c lines
283-299): at index `i` the code byte is `A[i]`, the length byte
`A[i+1]`, the value starts at `A[i+2]`.  A match flushes any previously
remembered segment into the aggregate buffer (setting `bp`), then
records `ol = A[i+1]`, `op = i+2` and adds `ol` to `bl`. -/
def scanMatch (c : Nat) (A : List Nat) (i : Nat) (acc : ScanAcc) : ScanAcc :=
  if A.getD i 0 = c then
    match acc.seg with
    | some s =>
      { acc with
        buf := acc.buf ++ segBytes (some s)
        bufUsed := true
        seg := some (A, i + 2, A.getD (i+1) 0)
        bl := acc.bl + A.getD (i+1) 0 }
    | none =>
      { acc with seg := some (A, i + 2, A.getD (i+1) 0), bl := acc.bl + A.getD (i+1) 0 }
  else acc

/-- One-to-one translation of the `while (p < e)` loop of `get_option`
(src/dhcp.c lines 281-325), fuel-indexed because the C loop can fail to
terminate (see claim C8).  After the match block (`scanMatch`) the
switch runs: PAD `continue`s; END either exits or, if an overload bit
is pending, clears that bit and switches the scan into the `file` or
`sname` field — where, exactly as in the C (the `break` falls through
to `l = *p++; p += l;`), the first byte of the new area is consumed as
a length byte; `OPTIONSOVERLOADED` latches `overl` from the first value
byte only when `overl` is currently 0; any other byte skips
`2 + length` bytes. -/
def scanGo (c : Nat) (m : DhcpMessage) :
    Nat → List Nat → Nat → ScanAcc → Option ScanAcc
  | 0, A, i, acc => if i < A.length then none else some acc
  | fuel+1, A, i, acc =>
    if i < A.length then
      if A.getD i 0 = DHO_PAD then scanGo c m fuel A (i+1) (scanMatch c A i acc)
      else if A.getD i 0 = DHO_END then
        if (scanMatch c A i acc).overl &&& 1 ≠ 0 then
          scanGo c m fuel (bootfileArea m) (1 + (bootfileArea m).getD 0 0)
            { scanMatch c A i acc with overl := (scanMatch c A i acc).overl &&& 254 }
        else if (scanMatch c A i acc).overl &&& 2 ≠ 0 then
          scanGo c m fuel (servernameArea m) (1 + (servernameArea m).getD 0 0)
            { scanMatch c A i acc with overl := (scanMatch c A i acc).overl &&& 253 }
        else some (scanMatch c A i acc)
      else if A.getD i 0 = DHO_OPTIONSOVERLOADED ∧ (scanMatch c A i acc).overl = 0 then
        scanGo c m fuel A (i + 2 + A.getD (i+1) 0)
          { scanMatch c A i acc with overl := A.getD (i+2) 0 }
      else
        scanGo c m fuel A (i + 2 + A.getD (i+1) 0) (scanMatch c A i acc)
    else some acc

/-- Result of `get_option`: `ok` is a successful return, `invalid` is
`NULL` with `errno = EINVAL`, `notFound` is `NULL` with
`errno = ENOENT`, and `spin` models the scanning loop not terminating
within the fuel bound. -/
inductive GetOpt where
  | ok (bytes : List Nat)
  | invalid
  | notFound
  | spin
  deriving DecidableEq

/-- The `exit:` tail of `get_option` (src/dhcp.c lines 327-344):
validate the collected length, then return the aggregate buffer (both
segments flushed), or `*len` bytes read at `op`, or fail. -/
def scanFinish (c : Nat) (acc : ScanAcc) : GetOpt :=
  match validate_length c acc.bl with
  | none => GetOpt.invalid
  | some n =>
    if acc.bufUsed then GetOpt.ok ((acc.buf ++ segBytes acc.seg).take n)
    else
      match acc.seg with
      | some (a, i, _) => GetOpt.ok ((a.drop i).take n)
      | none => GetOpt.notFound

/-- Fuel for the option scan; ample for every terminating scan that
stays inside the three fixed-size areas. -/
def GOFUEL : Nat := 1024

/-- Function `get_option` (src/dhcp.c lines 269-344). -/
def get_option (m : DhcpMessage) (c : Nat) : GetOpt :=
  match scanGo c m GOFUEL (optionsArea m) 0 {} with
  | some acc => scanFinish c acc
  | none => GetOpt.spin

/-- Function `get_option_uint8` (src/dhcp.c lines 385-394): first byte of the
returned value.  A non-terminating scan is mapped to `none` here; the
theorems about message handling restrict to messages whose scan
terminates. -/
def get_option_uint8 (m : DhcpMessage) (c : Nat) : Option Nat :=
  match get_option m c with
  | GetOpt.ok bs => some (bs.headD 0)
  | _ => none

/-- Big-endian value of a byte list (the `memcpy` of a returned option
value into a `uint32_t`/`in_addr` followed by `ntohl`, for a
representation that stores numeric values). -/
def beVal (bs : List Nat) : Nat := bs.foldl (fun a b => a * 256 + b % 256) 0

/-- Function `get_option_addr` (src/dhcp.c lines 346-356). -/
def get_option_addr (m : DhcpMessage) (c : Nat) : Option Nat :=
  match get_option m c with
  | GetOpt.ok bs => some (beVal (bs.take 4))
  | _ => none

/-! ### Specification-side view of a TLV options area

The spec (section 3) describes an options area as a stream of
`(code, length, value)` segments with the specials `PAD` (single byte,
skipped) and `END` (terminator).  `tlvSegs` is that clean reading of one
area, used to state what `get_option` collects. -/

/-- The `(code, value)` segments of one TLV area, reading from index
`i`; stops at END or at the end of the area. -/
def tlvSegs : Nat → List Nat → Nat → List (Nat × List Nat)
  | 0, _, _ => []
  | fuel+1, A, i =>
    if i < A.length then
      let o := A.getD i 0
      if o = DHO_PAD then tlvSegs fuel A (i+1)
      else if o = DHO_END then []
      else (o, (A.drop (i+2)).take (A.getD (i+1) 0)) ::
        tlvSegs fuel A (i + 2 + A.getD (i+1) 0)
    else []

/-- Well-formedness of one TLV area from index `i`: every segment lies
entirely inside the area and no `OPTIONSOVERLOAD` (code 52) segment
occurs, so a scan of the area stays in it and never switches fields. -/
def tlvOk : Nat → List Nat → Nat → Bool
  | 0, _, _ => false
  | fuel+1, A, i =>
    if i < A.length then
      let o := A.getD i 0
      if o = DHO_PAD then tlvOk fuel A (i+1)
      else if o = DHO_END then true
      else if o = DHO_OPTIONSOVERLOADED then false
      else decide (i + 2 + A.getD (i+1) 0 ≤ A.length) &&
        tlvOk fuel A (i + 2 + A.getD (i+1) 0)
    else true

/-- The call `get_option_uint8` applied to option 53, as done at the top of
`dhcp_handle` (src/dhcp.c lines 1876-1877): a message without a readable
message-type option is treated as BOOTP, type 0.  `none` models the
(pathological) case in which the option scan of the message does not
terminate, where the C never returns; the scan's control flow does not
depend on the searched code, so a message with any terminating lookup
has `some`. -/
def msgtype (m : DhcpMessage) : Option Nat :=
  match get_option m DHO_MESSAGETYPE with
  | GetOpt.ok bs => some (bs.headD 0)
  | GetOpt.invalid => some 0
  | GetOpt.notFound => some 0
  | GetOpt.spin => none

/-- Protocol states (spec section 3; the DHS_* enum lives in a header
that is not part of src/, so the states are modelled as the spec's
set). -/
inductive DhcpState where
  | init | discover | request | bound | renew | rebind | reboot | informing | probe | static
  deriving DecidableEq

/-- The configuration bits and external oracles `dhcp_handle` consults:
`requiremask` (option codes that must be present), the global
`DHCPCD_TEST` flag, the interface `DHCPCD_ARP` and `DHCPCD_INFORM`
flags, the interface address, and the result of the `has_address`
collaborator call. -/
structure Cfg where
  requiremask : List Nat := []
  test : Bool := false
  arp : Bool := false
  inform : Bool := false
  ifaceAddr : Nat := 0
  hasAddrOnIface : Bool := false
  deriving DecidableEq

/-- The slice of `struct if_state` that `dhcp_handle` reads or writes:
protocol state, retransmission interval, NAK backoff, the three message
buffers and the lease fields it assigns. -/
structure IfState where
  dstate : DhcpState := DhcpState.init
  interval : Nat := 0
  nakoff : Nat := 0
  offer : Option DhcpMessage := none
  newm : Option DhcpMessage := none
  oldm : Option DhcpMessage := none
  claims : Nat := 0
  probes : Nat := 0
  conflicts : Nat := 0
  leaseAddr : Nat := 0
  leaseServer : Nat := 0
  leaseCookie : Nat := 0
  leaseFrominfo : Bool := false
  deriving DecidableEq

/-- Externally visible calls `dhcp_handle` makes, in order: log lines,
`dhcp_drop`/`unlink`/`dhcp_close`, eloop timer operations, the script
hook, and the tail calls into `dhcp_request`, `arp_probe` and
`dhcp_bind`. -/
inductive Action where
  | logRejectNak
  | logNak
  | logRejectDhcp
  | logRejectInvalidAddr
  | logOffered
  | logIgnoringOffer
  | logNotAck
  | logAcknowledged
  | dropNak
  | unlinkLease
  | closeSockets
  | schedStart (delaySec : Nat)
  | cancelDiscover
  | cancelAll
  | runScript
  | exitProcess
  | callRequest
  | arpProbe
  | callBind
  deriving DecidableEq

/-- The required-options loop of `dhcp_handle` (src/dhcp.c lines
1906-1918): true when some required option `i ∈ 1..254` is absent from
the message, ignoring the Server-ID requirement for BOOTP (type 0). -/
def missingRequired (cfg : Cfg) (m : DhcpMessage) (type : Nat) : Bool :=
  (List.range 255).any fun i =>
    decide (1 ≤ i) && cfg.requiremask.contains i &&
    (get_option_uint8 m i).isNone && !(type == 0 && i == DHO_SERVERID)

/-- The tail of `dhcp_handle` shared by the BOOTP-offer and ACK paths
(src/dhcp.c lines 1987-2019): adopt the message as the offer if not
already adopted, clear `frominfo`, cancel all timers, close the
sockets, then either start an ARP probe (zeroing the ARP counters) or
bind. -/
def handleTail (cfg : Cfg) (st : IfState) (pre : List Action) (consumed : Bool)
    (m : DhcpMessage) : IfState × List Action :=
  let st1 := if consumed then st else { st with offer := some m }
  let st2 := { st1 with leaseFrominfo := false }
  let acts := pre ++ [Action.cancelAll, Action.closeSockets]
  match st2.offer with
  | some off =>
    if cfg.arp = true ∧ cfg.ifaceAddr ≠ off.yiaddr ∧ cfg.hasAddrOnIface = false then
      ({ st2 with claims := 0, probes := 0, conflicts := 0, dstate := DhcpState.probe },
        acts ++ [Action.arpProbe])
    else (st2, acts ++ [Action.callBind])
  | none => (st2, acts ++ [Action.callBind])

/-- Function `dhcp_handle` (src/dhcp.c lines 1860-2020), as a function from the
configuration, the interface state and the message to the new state and
the externally visible calls.  `dhcp_drop`'s own state effect (old and
new freed, lease address cleared; src/dhcp.c lines 1783-1796) is
inlined at its call site. -/
def dhcp_handle (cfg : Cfg) (st0 : IfState) (m : DhcpMessage) : IfState × List Action :=
  let st := { st0 with interval := 0 }
  let type := (msgtype m).getD 0
  if type = DHCP_NAK then
    if cfg.requiremask.contains DHO_SERVERID ∧ (get_option_addr m DHO_SERVERID).isNone then
      (st, [Action.logRejectNak])
    else
      let st1 := if cfg.test = false then
          { st with oldm := none, newm := none, leaseAddr := 0 } else st
      let acts := [Action.logNak] ++
        (if cfg.test = false then [Action.dropNak, Action.unlinkLease] else []) ++
        [Action.closeSockets, Action.schedStart st1.nakoff]
      let st2 := if st1.nakoff = 0 then { st1 with nakoff := 1 }
        else { st1 with nakoff := min (st1.nakoff * 2) NAKOFF_MAX }
      (st2, acts)
  else if missingRequired cfg m type then (st, [Action.logRejectDhcp])
  else if (type = 0 ∨ type = DHCP_OFFER ∨ type = DHCP_ACK) ∧
      (m.ciaddr = INADDR_ANY ∨ m.ciaddr = INADDR_BROADCAST) ∧
      (m.yiaddr = INADDR_ANY ∨ m.yiaddr = INADDR_BROADCAST) then
    (st, [Action.logRejectInvalidAddr])
  else
    let st1 := { st with nakoff := 0 }
    if (type = 0 ∨ type = DHCP_OFFER) ∧ st1.dstate = DhcpState.discover then
      let st2 := { st1 with
        leaseFrominfo := false
        leaseAddr := m.yiaddr
        leaseCookie := m.cookie
        leaseServer := if type = 0 then INADDR_ANY
          else (get_option_addr m DHO_SERVERID).getD INADDR_ANY
        offer := some m }
      if cfg.test = true then
        ({ st2 with oldm := st2.newm, newm := st2.offer, offer := none },
          [Action.logOffered, Action.runScript, Action.exitProcess])
      else if type ≠ 0 then
        (st2, [Action.logOffered, Action.cancelDiscover, Action.callRequest])
      else handleTail cfg st2 [Action.logOffered, Action.cancelDiscover] true m
    else
      if type ≠ 0 then
        if type = DHCP_OFFER then (st1, [Action.logIgnoringOffer])
        else if type ≠ DHCP_ACK then (st1, [Action.logNotAck])
        else handleTail cfg st1
          (if cfg.inform = true then [] else [Action.logAcknowledged]) false m
      else handleTail cfg st1 [] false m

/-- The interface identity checks of `dhcp_handlepacket` (src/dhcp.c
lines 2078-2099): expected transaction id, hardware address length and
hardware address. -/
structure DispatchCtx where
  xid : Nat := 0
  hwlen : Nat := 0
  hwaddr : List Nat := []
  deriving DecidableEq

inductive DispatchResult where
  | dropBogusCookie
  | dropWrongXid
  | dropWrongHwaddr
  | accepted
  deriving DecidableEq

/-- The per-message validation of the receive loop in
`dhcp_handlepacket` (src/dhcp.c lines 2078-2100), after UDP validation,
the white/blacklist checks and the size check: require the magic
cookie, then the interface's xid, then — when `hwlen` fits in `chaddr`
— a matching hardware address; a message passing all three is handed to
`dhcp_handle`. -/
def dhcp_handlepacket_check (ctx : DispatchCtx) (m : DhcpMessage) : DispatchResult :=
  if m.cookie ≠ MAGIC_COOKIE then DispatchResult.dropBogusCookie
  else if ctx.xid ≠ m.xid then DispatchResult.dropWrongXid
  else if ctx.hwlen ≤ 16 ∧ (padTo 16 m.chaddr).take ctx.hwlen ≠ ctx.hwaddr.take ctx.hwlen then
    DispatchResult.dropWrongHwaddr
  else DispatchResult.accepted

/-- The NAK backoff update of `dhcp_handle` (src/dhcp.c lines
1896-1902): from 0 to 1, otherwise doubled and capped at
`NAKOFF_MAX`. -/
def nakStep (n : Nat) : Nat := if n = 0 then 1 else min (n * 2) NAKOFF_MAX

/-- Value of `nakoff` after `k` consecutive NAKs starting from 0; the delay
scheduled at the `k`-th NAK (0-based) is `nakoffAfter k`, because the
timeout is added before the update. -/
def nakoffAfter : Nat → Nat
  | 0 => 0
  | k+1 => nakStep (nakoffAfter k)

/-- The retransmission interval update of `send_message` (src/dhcp.c
lines 1290-1296): 0 becomes 4, otherwise doubled and capped at 64. -/
def send_message_interval (i : Nat) : Nat := if i = 0 then 4 else min (i * 2) 64

/-- Value of `state->interval` after `n` retransmitted sends starting from 0. -/
def intervalAfter : Nat → Nat
  | 0 => 0
  | n+1 => send_message_interval (intervalAfter n)

/-- Modelled from the spec: the jitter bounds `DHCP_RAND_MIN`/
`DHCP_RAND_MAX` live in the dhcp.h header, which is not in src/; the
spec (section 4.2) requires a symmetric jitter
`rand(DHCP_RAND_MIN..DHCP_RAND_MAX)` around the interval, so the bounds
are one second each way. -/
def DHCP_RAND_MIN : Int := -1

def DHCP_RAND_MAX : Int := 1

def DHCP_RAND_MIN_U : Int := DHCP_RAND_MIN * 1000000

def DHCP_RAND_MAX_U : Int := DHCP_RAND_MAX * 1000000

/-- The scheduled retransmission delay of `send_message` in
microseconds (src/dhcp.c lines 1297-1299): `tv_sec = interval +
DHCP_RAND_MIN` and `tv_usec = arc4random() % (DHCP_RAND_MAX_U -
DHCP_RAND_MIN_U)`; `timernorm` only moves whole seconds between the two
fields, leaving the total unchanged. -/
def sendDelayMicros (interval rand : Nat) : Int :=
  ((interval : Int) + DHCP_RAND_MIN) * 1000000 +
    (rand : Int) % (DHCP_RAND_MAX_U - DHCP_RAND_MIN_U)

/-- The lease timer triple adjusted by `dhcp_bind`. -/
structure LeaseTimes where
  leasetime : Nat
  renewaltime : Nat
  rebindtime : Nat
  deriving DecidableEq

/-- Constant `~0U`, the infinite lease marker. -/
def U32INF : Nat := 4294967295

/-- Modelled from the spec: `T1`/`T2` are defined in the dhcp.h header,
which is not in src/; the spec (glossary) gives the renewal and rebind
fractions 0.5 and 0.875 of the lease time.  The C multiplies a
`uint32_t` by the double constant and truncates back to `uint32_t`;
for `T1 = 0.5` and `T2 = 0.875 = 7/8` the double arithmetic is exact,
so the result is the floor of `l/2` resp. `7*l/8`. -/
def t1mul (l : Nat) : Nat := l / 2

def t2mul (l : Nat) : Nat := l * 7 / 8

/-- The lease timer adjustment of `dhcp_bind` for a DHCP lease
(src/dhcp.c lines 1573-1607): infinite leases copy the lease time to
both timers; otherwise the lease time is clamped to `DHCP_MIN_LEASE`, a
missing (0) or over-large (≥ leasetime) rebind time is forced to
`leasetime * T2`, and a missing (0) or over-large (> rebindtime)
renewal time is forced to `leasetime * T1`. -/
def dhcp_bind_times (L : LeaseTimes) : LeaseTimes :=
  if L.leasetime = U32INF then
    { L with renewaltime := L.leasetime, rebindtime := L.leasetime }
  else
    let lt := if L.leasetime < DHCP_MIN_LEASE then DHCP_MIN_LEASE else L.leasetime
    let rb := if L.rebindtime = 0 then t2mul lt
      else if L.rebindtime ≥ lt then t2mul lt
      else L.rebindtime
    let rn := if L.renewaltime = 0 then t1mul lt
      else if L.renewaltime > rb then t1mul lt
      else L.renewaltime
    { leasetime := lt, renewaltime := rn, rebindtime := rb }

/-! ### Lease persistence (`write_lease`) -/

/-- Macro `is_bootp`: modelled from the spec ("BOOTP leases (no cookie) are
not persisted"; the macro lives in a header not in src/): a message
without the magic cookie. -/
def is_bootp (m : DhcpMessage) : Bool := m.cookie != MAGIC_COOKIE

/-- A `u32` as four big-endian bytes (the wire byte order of every
multi-byte field of `struct dhcp_message`). -/
def be32 (x : Nat) : List Nat :=
  [x / 16777216 % 256, x / 65536 % 256, x / 256 % 256, x % 256]

/-- A `u16` as two big-endian bytes. -/
def be16 (x : Nat) : List Nat := [x / 256 % 256, x % 256]

/-- The raw bytes of a `struct dhcp_message` in declaration order:
op, hwtype, hwlen, hops, xid, secs, flags, ciaddr, yiaddr, siaddr,
giaddr, chaddr[16], servername[64], bootfile[128], cookie,
options[OPTIONS_LEN]; the options area starts at offset 240. -/
def msgBytes (m : DhcpMessage) : List Nat :=
  [m.op % 256, m.hwtype % 256, m.hwlen % 256, m.hops % 256] ++
  be32 m.xid ++ be16 m.secs ++ be16 m.flags ++
  be32 m.ciaddr ++ be32 m.yiaddr ++ be32 m.siaddr ++ be32 m.giaddr ++
  padTo 16 m.chaddr ++ servernameArea m ++ bootfileArea m ++
  be32 m.cookie ++ optionsArea m

/-- Offset of the options area within `struct dhcp_message`: the
236-byte BOOTP header plus the 4-byte cookie. -/
def OPTIONS_OFFSET : Nat := 240

/-- The `while (p < e)` walk of `write_lease` (src/dhcp.c lines
1051-1062): index of the first END octet found at a TLV boundary of the
area, skipping PAD bytes singly and other options by `2 + length`;
`none` when the walk leaves the area without meeting an END. -/
def findEnd (A : List Nat) : Nat → Nat → Option Nat
  | 0, _ => none
  | fuel+1, i =>
    if i < A.length then
      if A.getD i 0 = DHO_END then some i
      else if A.getD i 0 = DHO_PAD then findEnd A fuel (i+1)
      else findEnd A fuel (i + 2 + A.getD (i+1) 0)
    else none

/-- Result of `write_lease`: a BOOTP lease unlinks the file and writes
nothing; otherwise the written bytes. -/
inductive WriteLease where
  | unlinked
  | wrote (bytes : List Nat)
  deriving DecidableEq

/-- Function `write_lease` (src/dhcp.c lines 1027-1066), modulo the I/O itself:
BOOTP messages unlink the lease file; otherwise the message bytes from
offset 0 up to (and excluding: `bytes = p - (const uint8_t *)dhcp`) the
END option are written, or the whole structure when no END is found. -/
def write_lease (m : DhcpMessage) : WriteLease :=
  if is_bootp m then WriteLease.unlinked
  else
    let A := optionsArea m
    let bytes := match findEnd A (A.length + 1) 0 with
      | some i => OPTIONS_OFFSET + i
      | none => OPTIONS_OFFSET + OPTIONS_LEN
    WriteLease.wrote ((msgBytes m).take bytes)

/-! ### Source-address filtering of the dispatcher -/

/-- Function `blacklisted_ip` (src/dhcp.c lines 1836-1845): the list holds
`(address, mask)` pairs (the C iterates a flat array two entries at a
time). -/
def blacklisted_ip (blacklist : List (Nat × Nat)) (addr : Nat) : Bool :=
  blacklist.any fun p => p.1 == addr &&& p.2

/-- Function `whitelisted_ip` (src/dhcp.c lines 1847-1858): -1 when no whitelist
is configured, 1 on a match, 0 otherwise. -/
def whitelisted_ip (whitelist : List (Nat × Nat)) (addr : Nat) : Int :=
  if whitelist.isEmpty then -1
  else if whitelist.any (fun p => p.1 == addr &&& p.2) then 1
  else 0

/-- The source-address filter of `dhcp_handlepacket` (src/dhcp.c lines
2047-2060): drop when a whitelist is configured and the source does not
match it; otherwise consult the blacklist — but only when
`whitelisted_ip` did not return 1. -/
def source_allowed (whitelist blacklist : List (Nat × Nat)) (addr : Nat) : Bool :=
  if whitelisted_ip whitelist addr = 0 then false
  else if whitelisted_ip whitelist addr ≠ 1 ∧ blacklisted_ip blacklist addr = true then false
  else true

/-! ### Concrete inputs for counterexamples and witnesses -/

def cfgEmpty : Cfg := {}

/-- A bound interface that has accumulated a NAK backoff of 8. -/
def stNak8 : IfState := { dstate := DhcpState.bound, nakoff := 8 }

/-- An OFFER whose `ciaddr` and `yiaddr` are both 0.0.0.0. -/
def mOfferBad : DhcpMessage := { cookie := MAGIC_COOKIE, options := [53, 1, 2, 255] }

/-- A NAK message. -/
def mNak : DhcpMessage := { cookie := MAGIC_COOKIE, options := [53, 1, 6, 255] }

def ctx4 : DispatchCtx := { xid := 7, hwlen := 6, hwaddr := [2, 0, 0, 0, 0, 1] }

/-- A BOOTP reply (no cookie) whose xid and chaddr match `ctx4`. -/
def mBootpNoCookie : DhcpMessage :=
  { op := 2, xid := 7, cookie := 0, chaddr := [2, 0, 0, 0, 0, 1], yiaddr := 167772161 }

/-- A DHCP reply with the magic cookie, matching `ctx4`. -/
def mWithCookie : DhcpMessage :=
  { op := 2, xid := 7, cookie := MAGIC_COOKIE, chaddr := [2, 0, 0, 0, 0, 1], options := [53, 1, 5, 255], yiaddr := 167772161 }

/-- A non-BOOTP lease whose options area starts directly with END. -/
def mLeaseEndFirst : DhcpMessage := { cookie := MAGIC_COOKIE, options := [255] }

/-- The segments with code `c` of one TLV area from index `i`. -/
def tlvFilter (c n : Nat) (A : List Nat) (i : Nat) : List (Nat × List Nat) :=
  (tlvSegs n A i).filter (fun s => s.1 == c)

/-- The concatenated value bytes of the segments with code `c` of one
TLV area from index `i`. -/
def tlvConcat (c n : Nat) (A : List Nat) (i : Nat) : List Nat :=
  ((tlvFilter c n A i).map Prod.snd).flatten

/-- The value lists of the segments with code `c` in the options area of
`m`, in order of appearance. -/
def optSegs (m : DhcpMessage) (c : Nat) : List (List Nat) :=
  ((tlvSegs GOFUEL (optionsArea m) 0).filter (fun s => s.1 == c)).map Prod.snd

/-- The concatenation, in order of appearance, of the value bytes of the
segments with code `c` in the options area of `m`. -/
def optConcat (m : DhcpMessage) (c : Nat) : List Nat := (optSegs m c).flatten

/-- Claim C1 as stated, instantiated at a message and a code: the
return value of `get_option` is the plain concatenation of the matching
segments, and NotFound (`ENOENT`) when there is none.  (For a message
that never triggers option overload the only area scanned is the
options area, so `optSegs` lists exactly the segments the claim
speaks of.) -/
@[reducible] def claimC1at (m : DhcpMessage) (c : Nat) : Prop :=
  if optSegs m c = [] then get_option m c = GetOpt.notFound
  else get_option m c = GetOpt.ok (optConcat m c)

/-- Counterexample message for C1: two 1-byte segments of option 53 in
a plain, in-bounds, overload-free options area. -/
def M1cex : DhcpMessage := { cookie := MAGIC_COOKIE, options := [53, 1, 5, 53, 1, 3, 255] }

/-- Failing input for claim C8.  The options area carries
`OPTIONSOVERLOAD = 1` (scan the `file` field only); the `file` field
carries a second `OPTIONSOVERLOAD = 2`; option 12 exists only in the
`sname` field. -/
def M8bug : DhcpMessage :=
  { cookie := MAGIC_COOKIE, options := [52, 1, 1, 255], bootfile := [0, 52, 1, 2, 255], servername := [0, 12, 3, 97, 98, 99, 255] }

/-! ### Theorems -/

/-- Claim C7: `validate_length` returns Invalid on a zero collected
length; passes an unknown code through unchanged; for a code of type
`ADDRIPV4 | ARRAY` rejects lengths below 4 and truncates others down to a
multiple of 4; and for a scalar-typed code rejects lengths below the
declared width and otherwise returns exactly that width. -/
theorem validate_length_ok (c dl : Nat) :
    (dl = 0 → validate_length c dl = none) ∧
    (findOpt c = none → 0 < dl → validate_length c dl = some dl) ∧
    (∀ t, findOpt c = some t → t &&& (STRING ||| RFC3442 ||| RFC5969) = 0 →
      t &&& ADDRIPV4 ≠ 0 → t &&& ARRAY ≠ 0 →
      (0 < dl → dl < 4 → validate_length c dl = none) ∧
      (4 ≤ dl → validate_length c dl = some (dl - dl % 4))) ∧
    (∀ t w, findOpt c = some t → scalarWidth t = some w →
      (0 < dl → dl < w → validate_length c dl = none) ∧
      (w ≤ dl → validate_length c dl = some w)) := by
  refine ⟨fun h => by simp [validate_length, h], fun h hdl => ?_, fun t ht hs ha har => ?_, ?_⟩
  · simp [validate_length, Nat.pos_iff_ne_zero.mp hdl, h]
  · have ht0 : t ≠ 0 := by
      intro h0; rw [h0] at ha; simp at ha
    constructor
    · intro hdl hlt
      simp [validate_length, Nat.pos_iff_ne_zero.mp hdl, ht, ht0, hs, ha, har, hlt]
    · intro hge
      have : ¬ dl = 0 := by omega
      have : ¬ dl < 4 := by omega
      simp [validate_length, ht, ht0, hs, ha, har, *]
  · intro t w ht hw
    unfold scalarWidth at hw
    by_cases h0 : t = 0
    · simp [h0] at hw
    by_cases hs : t &&& (STRING ||| RFC3442 ||| RFC5969) ≠ 0
    · simp [h0, hs] at hw
    by_cases harr : t &&& ARRAY ≠ 0
    · simp [h0, hs, harr] at hw
    have harr' : ¬ (t &&& ADDRIPV4 ≠ 0 ∧ t &&& ARRAY ≠ 0) := fun h => harr h.2
    by_cases h8 : t &&& UINT8 ≠ 0
    · have hw1 : w = 1 := by simp [h0, hs, harr, h8] at hw; omega
      subst hw1
      constructor
      · intro hdl hlt; omega
      · intro hge
        simp [validate_length, ht, h0, hs, harr', h8, Nat.pos_iff_ne_zero.mp (by omega : 0 < dl)]
    by_cases h16 : t &&& UINT16 ≠ 0
    · have hw2 : w = 2 := by simp [h0, hs, harr, h8, h16] at hw; omega
      subst hw2
      constructor
      · intro hdl hlt
        simp [validate_length, ht, h0, hs, harr', h8, h16, Nat.pos_iff_ne_zero.mp hdl, hlt]
      · intro hge
        simp only [validate_length, ht, if_neg (by omega : ¬ dl = 0)]
        simp [h0, hs, harr', h8, h16, (by omega : ¬ dl < 2)]
        omega
    by_cases h32 : t &&& (UINT32 ||| ADDRIPV4) ≠ 0
    · have hw4 : w = 4 := by simp [h0, hs, harr, h8, h16, h32] at hw; omega
      subst hw4
      constructor
      · intro hdl hlt
        simp [validate_length, ht, h0, hs, harr', h8, h16, h32, Nat.pos_iff_ne_zero.mp hdl, hlt]
      · intro hge
        simp only [validate_length, ht, if_neg (by omega : ¬ dl = 0)]
        simp [h0, hs, harr', h8, h16, h32, (by omega : ¬ dl < 4)]
        omega
    · simp [h0, hs, harr, h8, h16, h32] at hw

/-- Witness for C7 at concrete inputs: code 3 (`routers`, type
`ADDRIPV4|ARRAY|REQUEST`) with collected length 7 truncates to 4; code 53
(`dhcp_message_type`, `UINT8`) with length 2 returns width 1; the unknown
code 200 passes through; zero length is Invalid. -/
theorem validate_length_ok_witness :
    validate_length 3 7 = some 4 ∧ validate_length 53 2 = some 1 ∧
    validate_length 200 9 = some 9 ∧ validate_length 3 0 = none := by
  refine ⟨?_, ?_, ?_, ?_⟩
  · exact ((validate_length_ok 3 7).2.2.1 (IPV4A ||| REQUEST) (by decide) (by decide)
      (by decide) (by decide)).2 (by decide)
  · exact ((validate_length_ok 53 2).2.2.2 UINT8 1 (by decide) (by decide)).2 (by decide)
  · exact (validate_length_ok 200 9).2.1 (by decide) (by decide)
  · exact (validate_length_ok 3 0).1 rfl

/-- Claim C1 is false as stated: on `M1cex` the two segments of option
53 concatenate to `[5, 3]`, but `get_option` returns only `[5]` because
`validate_length` truncates the collected bytes to the declared scalar
width 1; and the absent option 77 yields Invalid (`EINVAL`), not
NotFound, because the collected length 0 already fails
`validate_length` before the NotFound branch is reached. -/
theorem get_option_concat_cex :
    ¬ claimC1at M1cex 53 ∧ ¬ claimC1at M1cex 77 := by decide

/-- Claim C8 (code bug): the options area of `M8bug` contains exactly
one `OPTIONSOVERLOAD` segment, with value 1, which directs the scan into
the `file` field only — so under the claim the second `OPTIONSOVERLOAD`
occurrence (inside `file`) is ignored and the `sname` field is never
scanned.  The code, however, honors the second occurrence (its guard
`if (!overl)` sees `overl` already cleared back to 0 after the `file`
switch consumed bit 1) and returns option 12 found in `sname`. -/
theorem scanMatch_of_ne (c : Nat) (A : List Nat) (i : Nat) (acc : ScanAcc)
    (h : A.getD i 0 ≠ c) : scanMatch c A i acc = acc := by
  unfold scanMatch
  rw [if_neg h]

theorem scanMatch_overl (c : Nat) (A : List Nat) (i : Nat) (acc : ScanAcc) :
    (scanMatch c A i acc).overl = acc.overl := by
  unfold scanMatch
  by_cases hm : A.getD i 0 = c
  · rw [if_pos hm]
    cases acc.seg <;> rfl
  · rw [if_neg hm]

theorem scanMatch_collected (c : Nat) (A : List Nat) (i : Nat) (acc : ScanAcc)
    (h : A.getD i 0 = c) :
    collectedOf (scanMatch c A i acc) =
      collectedOf acc ++ (A.drop (i+2)).take (A.getD (i+1) 0) := by
  unfold scanMatch collectedOf
  rw [if_pos h]
  cases acc.seg with
  | some s => simp [segBytes, List.append_assoc]
  | none => simp [segBytes]

theorem scanMatch_bl (c : Nat) (A : List Nat) (i : Nat) (acc : ScanAcc)
    (h : A.getD i 0 = c) :
    (scanMatch c A i acc).bl = acc.bl + A.getD (i+1) 0 := by
  unfold scanMatch
  rw [if_pos h]
  cases acc.seg <;> rfl

theorem scanMatch_seg (c : Nat) (A : List Nat) (i : Nat) (acc : ScanAcc)
    (h : A.getD i 0 = c) :
    (scanMatch c A i acc).seg = some (A, i + 2, A.getD (i+1) 0) := by
  unfold scanMatch
  rw [if_pos h]
  cases acc.seg <;> rfl

theorem scanMatch_buf_of_not_used (c : Nat) (A : List Nat) (i : Nat) (acc : ScanAcc)
    (h : (scanMatch c A i acc).bufUsed = false) :
    (scanMatch c A i acc).buf = acc.buf := by
  unfold scanMatch at h ⊢
  by_cases hm : A.getD i 0 = c
  · rw [if_pos hm] at h ⊢
    cases hseg : acc.seg with
    | some s => rw [hseg] at h; simp at h
    | none => rfl
  · rw [if_neg hm]

theorem scanMatch_bufUsed_mono (c : Nat) (A : List Nat) (i : Nat) (acc : ScanAcc)
    (h : acc.bufUsed = true) : (scanMatch c A i acc).bufUsed = true := by
  unfold scanMatch
  by_cases hm : A.getD i 0 = c
  · rw [if_pos hm]
    cases acc.seg
    · exact h
    · rfl
  · rw [if_neg hm]
    exact h

theorem tlvSegs_stop (n : Nat) (A : List Nat) (i : Nat) (hi : ¬ i < A.length) :
    tlvSegs n A i = [] := by
  cases n with
  | zero => rfl
  | succ n => rw [tlvSegs, if_neg hi]

theorem tlvSegs_pad (n : Nat) (A : List Nat) (i : Nat) (hi : i < A.length)
    (h0 : A.getD i 0 = DHO_PAD) : tlvSegs (n+1) A i = tlvSegs n A (i+1) := by
  rw [tlvSegs, if_pos hi, if_pos h0]

theorem tlvSegs_end (n : Nat) (A : List Nat) (i : Nat) (hi : i < A.length)
    (h0 : A.getD i 0 ≠ DHO_PAD) (hE : A.getD i 0 = DHO_END) : tlvSegs (n+1) A i = [] := by
  rw [tlvSegs, if_pos hi, if_neg h0, if_pos hE]

theorem tlvSegs_cons (n : Nat) (A : List Nat) (i : Nat) (hi : i < A.length)
    (h0 : A.getD i 0 ≠ DHO_PAD) (hE : A.getD i 0 ≠ DHO_END) :
    tlvSegs (n+1) A i = (A.getD i 0, (A.drop (i+2)).take (A.getD (i+1) 0)) ::
      tlvSegs n A (i + 2 + A.getD (i+1) 0) := by
  rw [tlvSegs, if_pos hi, if_neg h0, if_neg hE]

theorem tlvFilter_stop (c n : Nat) (A : List Nat) (i : Nat) (h : tlvSegs n A i = []) :
    tlvFilter c n A i = [] := by
  unfold tlvFilter
  rw [h]
  rfl

theorem tlvConcat_of_filter (c n c' n' : Nat) (A A' : List Nat) (i i' : Nat)
    (h : tlvFilter c n A i = tlvFilter c' n' A' i') :
    tlvConcat c n A i = tlvConcat c' n' A' i' := by
  unfold tlvConcat
  rw [h]

theorem tlvConcat_nil (c n : Nat) (A : List Nat) (i : Nat) (h : tlvFilter c n A i = []) :
    tlvConcat c n A i = [] := by
  unfold tlvConcat
  rw [h]
  rfl

theorem scanGo_stop (c : Nat) (m : DhcpMessage) (n : Nat) (A : List Nat) (i : Nat)
    (acc : ScanAcc) (hi : ¬ i < A.length) : scanGo c m n A i acc = some acc := by
  cases n with
  | zero => rw [scanGo, if_neg hi]
  | succ n => rw [scanGo, if_neg hi]

theorem scanGo_pad (c : Nat) (m : DhcpMessage) (n : Nat) (A : List Nat) (i : Nat)
    (acc : ScanAcc) (hi : i < A.length) (h0 : A.getD i 0 = DHO_PAD) :
    scanGo c m (n+1) A i acc = scanGo c m n A (i+1) (scanMatch c A i acc) := by
  rw [scanGo, if_pos hi, if_pos h0]

theorem scanGo_exit (c : Nat) (m : DhcpMessage) (n : Nat) (A : List Nat) (i : Nat)
    (acc : ScanAcc) (hi : i < A.length) (h0 : A.getD i 0 ≠ DHO_PAD)
    (hE : A.getD i 0 = DHO_END) (hov : acc.overl = 0) :
    scanGo c m (n+1) A i acc = some (scanMatch c A i acc) := by
  have hovm : (scanMatch c A i acc).overl = 0 := by rw [scanMatch_overl]; exact hov
  rw [scanGo, if_pos hi, if_neg h0, if_pos hE]
  simp [hovm]

theorem scanGo_cons (c : Nat) (m : DhcpMessage) (n : Nat) (A : List Nat) (i : Nat)
    (acc : ScanAcc) (hi : i < A.length) (h0 : A.getD i 0 ≠ DHO_PAD)
    (hE : A.getD i 0 ≠ DHO_END) (h52 : A.getD i 0 ≠ DHO_OPTIONSOVERLOADED) :
    scanGo c m (n+1) A i acc =
      scanGo c m n A (i + 2 + A.getD (i+1) 0) (scanMatch c A i acc) := by
  rw [scanGo, if_pos hi, if_neg h0, if_neg hE, if_neg (fun hand => h52 hand.1)]

theorem scanGo_tlvOk (c : Nat) (m : DhcpMessage) (A : List Nat)
    (hc0 : c ≠ DHO_PAD) (hcE : c ≠ DHO_END) :
    ∀ n i acc, tlvOk n A i = true → acc.overl = 0 →
      ∃ accF, scanGo c m n A i acc = some accF ∧
        collectedOf accF = collectedOf acc ++ tlvConcat c n A i ∧
        accF.bl = acc.bl + (tlvConcat c n A i).length ∧
        (accF.seg = none ↔ (acc.seg = none ∧ tlvFilter c n A i = [])) ∧
        (accF.bufUsed = false → accF.buf = acc.buf) ∧
        (acc.bufUsed = true → accF.bufUsed = true) := by
  intro n
  induction n with
  | zero =>
    intro i acc hok _
    simp [tlvOk] at hok
  | succ n ih =>
    intro i acc hok hov
    by_cases hi : i < A.length
    case neg =>
      have hnil : tlvFilter c (n+1) A i = [] := tlvFilter_stop _ _ _ _ (tlvSegs_stop _ _ _ hi)
      refine ⟨acc, scanGo_stop c m _ A i acc hi, ?_, ?_, ?_, fun _ => rfl, fun h => h⟩
      · rw [tlvConcat_nil _ _ _ _ hnil]
        simp
      · rw [tlvConcat_nil _ _ _ _ hnil]
        simp
      · rw [hnil]
        simp
    case pos =>
      by_cases h0 : A.getD i 0 = DHO_PAD
      · -- PAD: skip one byte; no match possible since c ≠ PAD
        have hmne : A.getD i 0 ≠ c := by rw [h0]; exact fun hh => hc0 hh.symm
        have hok' : tlvOk n A (i+1) = true := by
          rw [tlvOk, if_pos hi, if_pos h0] at hok; exact hok
        have hfil : tlvFilter c (n+1) A i = tlvFilter c n A (i+1) := by
          unfold tlvFilter
          rw [tlvSegs_pad n A i hi h0]
        obtain ⟨accF, hrun, hcol, hbl, hseg, hbuf, hmono⟩ := ih (i+1) acc hok' hov
        refine ⟨accF, ?_, ?_, ?_, ?_, hbuf, hmono⟩
        · rw [scanGo_pad c m n A i acc hi h0, scanMatch_of_ne c A i acc hmne]
          exact hrun
        · rw [tlvConcat_of_filter _ _ _ _ _ _ _ _ hfil]
          exact hcol
        · rw [tlvConcat_of_filter _ _ _ _ _ _ _ _ hfil]
          exact hbl
        · rw [hfil]
          exact hseg
      by_cases hE : A.getD i 0 = DHO_END
      · -- END with no overload pending: exit with the state unchanged
        have hmne : A.getD i 0 ≠ c := by rw [hE]; exact fun hh => hcE hh.symm
        have hnil : tlvFilter c (n+1) A i = [] :=
          tlvFilter_stop _ _ _ _ (tlvSegs_end n A i hi h0 hE)
        refine ⟨acc, ?_, ?_, ?_, ?_, fun _ => rfl, fun h => h⟩
        · rw [scanGo_exit c m n A i acc hi h0 hE hov, scanMatch_of_ne c A i acc hmne]
        · rw [tlvConcat_nil _ _ _ _ hnil]
          simp
        · rw [tlvConcat_nil _ _ _ _ hnil]
          simp
        · rw [hnil]
          simp
      by_cases h52 : A.getD i 0 = DHO_OPTIONSOVERLOADED
      · -- excluded by tlvOk
        rw [tlvOk, if_pos hi, if_neg h0, if_neg hE, if_pos h52] at hok
        exact absurd hok (by simp)
      · -- ordinary segment: skip 2 + length bytes, possibly recording a match
        have hok' := hok
        rw [tlvOk, if_pos hi, if_neg h0, if_neg hE, if_neg h52, Bool.and_eq_true] at hok'
        obtain ⟨hbd, hoknext⟩ := hok'
        have hbound : i + 2 + A.getD (i+1) 0 ≤ A.length := of_decide_eq_true hbd
        have hov1 : (scanMatch c A i acc).overl = 0 := by rw [scanMatch_overl]; exact hov
        obtain ⟨accF, hrun, hcol, hbl, hseg, hbuf, hmono⟩ :=
          ih (i + 2 + A.getD (i+1) 0) (scanMatch c A i acc) hoknext hov1
        by_cases hmc : A.getD i 0 = c
        · -- a matching segment
          have hlen : ((A.drop (i+2)).take (A.getD (i+1) 0)).length = A.getD (i+1) 0 := by
            rw [List.length_take, List.length_drop]
            omega
          have hfil : tlvFilter c (n+1) A i =
              (A.getD i 0, (A.drop (i+2)).take (A.getD (i+1) 0)) ::
                tlvFilter c n A (i + 2 + A.getD (i+1) 0) := by
            unfold tlvFilter
            rw [tlvSegs_cons n A i hi h0 hE, List.filter_cons, if_pos (by simp only [beq_iff_eq]; exact hmc)]
          have hcat : tlvConcat c (n+1) A i =
              (A.drop (i+2)).take (A.getD (i+1) 0) ++
                tlvConcat c n A (i + 2 + A.getD (i+1) 0) := by
            unfold tlvConcat
            rw [hfil]
            rfl
          refine ⟨accF, ?_, ?_, ?_, ?_, ?_, ?_⟩
          · rw [scanGo_cons c m n A i acc hi h0 hE h52]
            exact hrun
          · rw [hcat, hcol, scanMatch_collected c A i acc hmc, List.append_assoc]
          · rw [hcat, hbl, scanMatch_bl c A i acc hmc, List.length_append, hlen]
            omega
          · rw [hfil]
            constructor
            · intro hn
              rw [hseg, scanMatch_seg c A i acc hmc] at hn
              exact absurd hn.1 (by simp)
            · intro hx
              exact absurd hx.2 (by simp)
          · intro hused
            have hsm : (scanMatch c A i acc).bufUsed = false := by
              cases hb : (scanMatch c A i acc).bufUsed
              · rfl
              · exact absurd (hmono hb) (by simp [hused])
            rw [hbuf hused, scanMatch_buf_of_not_used c A i acc hsm]
          · intro hused
            exact hmono (scanMatch_bufUsed_mono c A i acc hused)
        · -- a non-matching segment
          have hfil : tlvFilter c (n+1) A i = tlvFilter c n A (i + 2 + A.getD (i+1) 0) := by
            unfold tlvFilter
            rw [tlvSegs_cons n A i hi h0 hE, List.filter_cons, if_neg (by simp only [beq_iff_eq]; exact hmc)]
          rw [scanMatch_of_ne c A i acc hmc] at hrun hcol hbl hseg hbuf hmono
          refine ⟨accF, ?_, ?_, ?_, ?_, hbuf, hmono⟩
          · rw [scanGo_cons c m n A i acc hi h0 hE h52, scanMatch_of_ne c A i acc hmc]
            exact hrun
          · rw [tlvConcat_of_filter _ _ _ _ _ _ _ _ hfil]
            exact hcol
          · rw [tlvConcat_of_filter _ _ _ _ _ _ _ _ hfil]
            exact hbl
          · rw [hfil]
            exact hseg

theorem validate_length_le (c dl n : Nat) (h : validate_length c dl = some n) : n ≤ dl := by
  simp only [validate_length] at h
  by_cases h0 : dl = 0
  · rw [if_pos h0] at h
    exact absurd h (by simp)
  rw [if_neg h0] at h
  rcases hf : findOpt c with _ | t <;> simp only [hf] at h
  · exact le_of_eq (Option.some.inj h).symm
  by_cases hA : t = 0 ∨ t &&& (STRING ||| RFC3442 ||| RFC5969) ≠ 0
  · rw [if_pos hA] at h
    exact le_of_eq (Option.some.inj h).symm
  rw [if_neg hA] at h
  by_cases hB : t &&& ADDRIPV4 ≠ 0 ∧ t &&& ARRAY ≠ 0
  · rw [if_pos hB] at h
    by_cases hC : dl < 4
    · rw [if_pos hC] at h
      exact absurd h (by simp)
    · rw [if_neg hC] at h
      have := Option.some.inj h
      omega
  · rw [if_neg hB] at h
    generalize (if t &&& UINT8 ≠ 0 then (1:Nat) else if t &&& UINT16 ≠ 0 then 2
      else if t &&& (UINT32 ||| ADDRIPV4) ≠ 0 then 4 else 0) = s at h
    by_cases hD : s = 0
    · rw [if_pos hD] at h
      exact le_of_eq (Option.some.inj h).symm
    rw [if_neg hD] at h
    by_cases hEe : dl < s
    · rw [if_pos hEe] at h
      exact absurd h (by simp)
    · rw [if_neg hEe] at h
      have := Option.some.inj h
      omega

/-- Claim C1, amended: for a message whose options area is a well-formed
TLV stream free of `OPTIONSOVERLOAD`, and a code other than the PAD and
END specials, `get_option` returns the concatenation, in order of
appearance, of the value bytes of the segments with code `c`, truncated
to the length `validate_length` assigns to the collected total (Invalid
when validation rejects it).  When no segment with code `c` exists the
collected length is 0, which `validate_length` already rejects, so the
result is Invalid (`EINVAL`) — the NotFound (`ENOENT`) branch of the C
function is unreachable. -/
theorem get_option_concat_validated (m : DhcpMessage) (c : Nat)
    (hc0 : c ≠ DHO_PAD) (hcE : c ≠ DHO_END)
    (hwf : tlvOk GOFUEL (optionsArea m) 0 = true) :
    get_option m c =
      match validate_length c (optConcat m c).length with
      | none => GetOpt.invalid
      | some n => GetOpt.ok ((optConcat m c).take n) := by
  obtain ⟨accF, hrun, hcol, hbl, hseg, hbuf, _⟩ :=
    scanGo_tlvOk c m (optionsArea m) hc0 hcE GOFUEL 0 {} hwf rfl
  have hconc : tlvConcat c GOFUEL (optionsArea m) 0 = optConcat m c := rfl
  rw [hconc] at hcol hbl
  have hcol0 : accF.buf ++ segBytes accF.seg = optConcat m c := by
    simpa [collectedOf, segBytes] using hcol
  have hbl0 : accF.bl = (optConcat m c).length := by simpa using hbl
  unfold get_option
  rw [hrun]
  show scanFinish c accF = _
  unfold scanFinish
  rw [hbl0]
  cases hv : validate_length c (optConcat m c).length with
  | none => rfl
  | some n =>
    show (if accF.bufUsed = true then GetOpt.ok ((accF.buf ++ segBytes accF.seg).take n)
        else match accF.seg with
          | some (a, i, _) => GetOpt.ok ((a.drop i).take n)
          | none => GetOpt.notFound) = GetOpt.ok ((optConcat m c).take n)
    have hle : n ≤ (optConcat m c).length := validate_length_le _ _ _ hv
    by_cases hbu : accF.bufUsed = true
    · rw [if_pos hbu, hcol0]
    · rw [if_neg hbu]
      have hbuf0 : accF.buf = [] := hbuf (by simpa using hbu)
      cases hsg : accF.seg with
      | none =>
        have hfil : tlvFilter c GOFUEL (optionsArea m) 0 = [] := (hseg.mp hsg).2
        have hocn : optConcat m c = [] := by
          rw [← hconc]
          exact tlvConcat_nil _ _ _ _ hfil
        rw [hocn] at hv
        simp [validate_length] at hv
      | some s =>
        obtain ⟨a, j, L⟩ := s
        show GetOpt.ok ((a.drop j).take n) = GetOpt.ok ((optConcat m c).take n)
        have hoc : optConcat m c = (a.drop j).take L := by
          rw [← hcol0, hbuf0, hsg]
          simp [segBytes]
        have hLle : n ≤ L := by
          rw [hoc] at hle
          have h2 : ((a.drop j).take L).length ≤ L := by
            rw [List.length_take]
            omega
          omega
        rw [hoc, List.take_take, Nat.min_eq_left hLle]

/-- Witness for the amended C1 at a concrete input: a single option-1
segment carrying four bytes in a well-formed options area. -/
theorem get_option_concat_validated_witness :
    (1:Nat) ≠ DHO_PAD ∧ (1:Nat) ≠ DHO_END ∧
    tlvOk GOFUEL (optionsArea { cookie := MAGIC_COOKIE, options := [1, 4, 192, 168, 1, 7, 255] }) 0 = true ∧
    get_option { cookie := MAGIC_COOKIE, options := [1, 4, 192, 168, 1, 7, 255] } 1 =
      GetOpt.ok [192, 168, 1, 7] := by
  refine ⟨by decide, by decide, by decide, ?_⟩
  rw [get_option_concat_validated _ 1 (by decide) (by decide) (by decide)]
  decide

theorem get_option_overload_honored_twice :
    (tlvSegs GOFUEL (optionsArea M8bug) 0).filter (fun s => s.1 == DHO_OPTIONSOVERLOADED)
      = [(52, [1])] ∧
    optSegs M8bug 12 = [] ∧
    (tlvSegs GOFUEL (bootfileArea M8bug) 1).filter (fun s => s.1 == 12) = [] ∧
    get_option M8bug 12 = GetOpt.ok [97, 98, 99] := by decide

/-- Claim C6: the retransmission interval sequence starting from 0 is
exactly 4, 8, 16, 32, 64, 64, … seconds before jitter, and every
scheduled delay is the interval plus a jitter within
`[DHCP_RAND_MIN, DHCP_RAND_MAX]` seconds. -/
theorem send_message_interval_jitter :
    (∀ n, intervalAfter (n+1) = min (2^(n+2)) 64) ∧
    (∀ (interval rand : Nat),
      ((interval : Int) + DHCP_RAND_MIN) * 1000000 ≤ sendDelayMicros interval rand ∧
      sendDelayMicros interval rand ≤ ((interval : Int) + DHCP_RAND_MAX) * 1000000) := by
  constructor
  · intro n
    induction n with
    | zero => decide
    | succ n ihn =>
      rw [show intervalAfter (n+1+1) = send_message_interval (intervalAfter (n+1)) from rfl,
        ihn]
      unfold send_message_interval
      have h1 : 1 ≤ 2^(n+2) := Nat.one_le_two_pow
      have h2 : (2:Nat)^(n+1+2) = 2^(n+2) * 2 := by ring
      split_ifs with h3
      · omega
      · omega
  · intro i r
    simp only [sendDelayMicros, DHCP_RAND_MIN, DHCP_RAND_MAX, DHCP_RAND_MIN_U, DHCP_RAND_MAX_U]
    norm_num
    have h0 : (0:Int) ≤ (r:Int) % 2000000 := Int.emod_nonneg _ (by norm_num)
    have h1 : (r:Int) % 2000000 < 2000000 := Int.emod_lt_of_pos _ (by norm_num)
    constructor <;> omega

/-- Counterexample for claim C2: a finite lease of 3600 seconds whose
server supplied `rebindtime = 100 < leasetime` (kept) and
`renewaltime = 200 > rebindtime` (forced to `leasetime * T1 = 1800`):
after `dhcp_bind` the renewal time 1800 exceeds the rebind time 100, so
`0 < renewaltime < rebindtime < leasetime` fails. -/
theorem dhcp_bind_times_cex :
    (3600 : Nat) ≠ U32INF ∧
    dhcp_bind_times ⟨3600, 200, 100⟩ = ⟨3600, 1800, 100⟩ ∧
    ¬ (dhcp_bind_times ⟨3600, 200, 100⟩).renewaltime <
        (dhcp_bind_times ⟨3600, 200, 100⟩).rebindtime := by decide

/-- Claim C2, amended: for a finite lease `dhcp_bind` guarantees
`DHCP_MIN_LEASE ≤ leasetime`, `0 < renewaltime`,
`0 < rebindtime < leasetime`; a missing (0) or over-large
(≥ leasetime) server rebind is forced to `leasetime*T2`, and a missing
(0) server renewal, or one exceeding the (adjusted) rebind time, is
forced to `leasetime*T1` (last conjunct — not clamped to the rebind
time); `renewaltime ≤ rebindtime` can fail only when the renewal was
forced to `leasetime*T1` and the (server-supplied) rebind time is
below `leasetime*T1` — in particular it holds whenever the final
rebind time is at least `leasetime*T1`. -/
theorem dhcp_bind_times_invariant (L : LeaseTimes) (h : L.leasetime ≠ U32INF) :
    DHCP_MIN_LEASE ≤ (dhcp_bind_times L).leasetime ∧
    0 < (dhcp_bind_times L).renewaltime ∧
    0 < (dhcp_bind_times L).rebindtime ∧
    (dhcp_bind_times L).rebindtime < (dhcp_bind_times L).leasetime ∧
    ((dhcp_bind_times L).renewaltime ≤ (dhcp_bind_times L).rebindtime ∨
      (dhcp_bind_times L).renewaltime = t1mul (dhcp_bind_times L).leasetime) ∧
    (t1mul (dhcp_bind_times L).leasetime ≤ (dhcp_bind_times L).rebindtime →
      (dhcp_bind_times L).renewaltime ≤ (dhcp_bind_times L).rebindtime) ∧
    (L.rebindtime = 0 → (dhcp_bind_times L).rebindtime = t2mul (dhcp_bind_times L).leasetime) ∧
    ((dhcp_bind_times L).leasetime ≤ L.rebindtime →
      (dhcp_bind_times L).rebindtime = t2mul (dhcp_bind_times L).leasetime) ∧
    (L.renewaltime = 0 → (dhcp_bind_times L).renewaltime = t1mul (dhcp_bind_times L).leasetime) ∧
    ((dhcp_bind_times L).rebindtime < L.renewaltime →
      (dhcp_bind_times L).renewaltime = t1mul (dhcp_bind_times L).leasetime) := by
  unfold dhcp_bind_times
  rw [if_neg h]
  simp only [t1mul, t2mul, DHCP_MIN_LEASE]
  split_ifs <;> simp_all <;> omega

/-- Witness for the amended C2: leasetime 3600 with no server times
yields renewal 1800 and rebind 3150. -/
theorem dhcp_bind_times_invariant_witness :
    dhcp_bind_times ⟨3600, 0, 0⟩ = ⟨3600, 1800, 3150⟩ ∧
    0 < (dhcp_bind_times ⟨3600, 0, 0⟩).renewaltime ∧
    (dhcp_bind_times ⟨3600, 0, 0⟩).rebindtime < 3600 := by
  refine ⟨by decide, (dhcp_bind_times_invariant ⟨3600, 0, 0⟩ (by decide)).2.1, ?_⟩
  have h := (dhcp_bind_times_invariant ⟨3600, 0, 0⟩ (by decide)).2.2.2.1
  simpa using h

/-- Counterexample for claim C9: a source address that is both
whitelisted and blacklisted is accepted — the blacklist is not applied
to frames that match a configured whitelist. -/
theorem source_blacklist_cex :
    blacklisted_ip [(5, U32INF)] 5 = true ∧
    source_allowed [(5, U32INF)] [(5, U32INF)] 5 = true := by decide

/-- Claim C9, amended: when a whitelist is configured, a frame is
accepted exactly when its source matches the whitelist (the blacklist
is not consulted); when no whitelist is configured, a frame is accepted
exactly when its source does not match the blacklist. -/
theorem source_allowed_iff (wl bl : List (Nat × Nat)) (a : Nat) :
    source_allowed wl bl a =
      (if wl.isEmpty then !(blacklisted_ip bl a)
       else wl.any (fun p => p.1 == a &&& p.2)) := by
  unfold source_allowed whitelisted_ip
  by_cases hw : wl.isEmpty
  · rw [if_pos hw]
    by_cases hb : blacklisted_ip bl a = true
    · simp [hw, hb]
    · simp [hw, hb]
  · rw [if_neg hw]
    by_cases hm : wl.any (fun p => p.1 == a &&& p.2) = true
    · simp [hw, hm]
    · simp [hw, hm]

theorem padTo_length (n : Nat) (l : List Nat) : (padTo n l).length = n := by
  unfold padTo
  rw [List.length_append, List.length_take, List.length_replicate]
  omega

theorem msgBytes_length (m : DhcpMessage) : (msgBytes m).length = 552 := by
  simp [msgBytes, be32, be16, padTo_length, servernameArea, bootfileArea, optionsArea,
    SERVERNAME_LEN, BOOTFILE_LEN, OPTIONS_LEN]

theorem findEnd_lt (A : List Nat) :
    ∀ fuel i0 i, findEnd A fuel i0 = some i → i < A.length := by
  intro fuel
  induction fuel with
  | zero =>
    intro i0 i h
    simp [findEnd] at h
  | succ fuel ih =>
    intro i0 i h
    rw [findEnd] at h
    by_cases hi : i0 < A.length
    · rw [if_pos hi] at h
      by_cases hEnd : A.getD i0 0 = DHO_END
      · rw [if_pos hEnd] at h
        cases h
        exact hi
      · rw [if_neg hEnd] at h
        by_cases hP : A.getD i0 0 = DHO_PAD
        · rw [if_pos hP] at h
          exact ih _ _ h
        · rw [if_neg hP] at h
          exact ih _ _ h
    · rw [if_neg hi] at h
      cases h

theorem findEnd_isEnd (A : List Nat) :
    ∀ fuel i0 i, findEnd A fuel i0 = some i → A.getD i 0 = DHO_END := by
  intro fuel
  induction fuel with
  | zero =>
    intro i0 i h
    simp [findEnd] at h
  | succ fuel ih =>
    intro i0 i h
    rw [findEnd] at h
    by_cases hi : i0 < A.length
    · rw [if_pos hi] at h
      by_cases hEnd : A.getD i0 0 = DHO_END
      · rw [if_pos hEnd] at h
        cases h
        exact hEnd
      · rw [if_neg hEnd] at h
        by_cases hP : A.getD i0 0 = DHO_PAD
        · rw [if_pos hP] at h
          exact ih _ _ h
        · rw [if_neg hP] at h
          exact ih _ _ h
    · rw [if_neg hi] at h
      cases h

theorem msgBytes_getD_options (m : DhcpMessage) (i : Nat) :
    (msgBytes m).getD (OPTIONS_OFFSET + i) 0 = (optionsArea m).getD i 0 := by
  have hdec : msgBytes m =
      ([m.op % 256, m.hwtype % 256, m.hwlen % 256, m.hops % 256] ++
        be32 m.xid ++ be16 m.secs ++ be16 m.flags ++ be32 m.ciaddr ++ be32 m.yiaddr ++
        be32 m.siaddr ++ be32 m.giaddr ++ padTo 16 m.chaddr ++ servernameArea m ++
        bootfileArea m ++ be32 m.cookie) ++ optionsArea m := rfl
  have hXlen : ([m.op % 256, m.hwtype % 256, m.hwlen % 256, m.hops % 256] ++
      be32 m.xid ++ be16 m.secs ++ be16 m.flags ++ be32 m.ciaddr ++ be32 m.yiaddr ++
      be32 m.siaddr ++ be32 m.giaddr ++ padTo 16 m.chaddr ++ servernameArea m ++
      bootfileArea m ++ be32 m.cookie).length = OPTIONS_OFFSET := by
    simp [be32, be16, padTo_length, servernameArea, bootfileArea, OPTIONS_OFFSET,
      SERVERNAME_LEN, BOOTFILE_LEN]
  rw [hdec, List.getD_append_right _ _ _ _ (by rw [hXlen]; omega), hXlen]
  congr 1
  omega

/-- Counterexample for claim C3: a lease whose options area starts with
the END octet.  The claim requires 241 bytes (through END inclusive);
`write_lease` computes `bytes = p - (const uint8_t *)dhcp` and writes
240 bytes, excluding the END octet. -/
theorem write_lease_cex :
    is_bootp mLeaseEndFirst = false ∧
    findEnd (optionsArea mLeaseEndFirst) ((optionsArea mLeaseEndFirst).length + 1) 0 = some 0 ∧
    write_lease mLeaseEndFirst = WriteLease.wrote ((msgBytes mLeaseEndFirst).take 240) ∧
    write_lease mLeaseEndFirst ≠
      WriteLease.wrote ((msgBytes mLeaseEndFirst).take 241) := by decide

/-- Claim C3, amended: for a non-BOOTP message whose options area has
an END octet at a TLV boundary, `write_lease` writes exactly the
message bytes from offset 0 up to but excluding that END octet (bytes
written = offset of END), and the first unwritten byte is the END octet
itself; a BOOTP message (no magic cookie) writes nothing and unlinks
the lease file. -/
theorem write_lease_end_exclusive (m : DhcpMessage) (i : Nat)
    (hb : is_bootp m = false)
    (hf : findEnd (optionsArea m) ((optionsArea m).length + 1) 0 = some i) :
    write_lease m = WriteLease.wrote ((msgBytes m).take (OPTIONS_OFFSET + i)) ∧
    ((msgBytes m).take (OPTIONS_OFFSET + i)).length = OPTIONS_OFFSET + i ∧
    (msgBytes m).getD (OPTIONS_OFFSET + i) 0 = DHO_END ∧
    (∀ m', is_bootp m' = true → write_lease m' = WriteLease.unlinked) := by
  have hlt : i < (optionsArea m).length := findEnd_lt _ _ _ _ hf
  have hlen : (optionsArea m).length = OPTIONS_LEN := by
    unfold optionsArea
    exact padTo_length _ _
  refine ⟨?_, ?_, ?_, ?_⟩
  · unfold write_lease
    rw [if_neg (by simp [hb])]
    simp only [hf]
  · have hi312 : i < 312 := by
      rw [hlen] at hlt
      simpa [OPTIONS_LEN] using hlt
    rw [List.length_take, msgBytes_length]
    simp [OPTIONS_OFFSET]
    omega
  · rw [msgBytes_getD_options]
    exact findEnd_isEnd _ _ _ _ hf
  · intro m' h'
    unfold write_lease
    rw [if_pos (by simp [h'])]

/-- Witness for the amended C3 at concrete inputs: `mLeaseEndFirst`
(END at options offset 0, 240 bytes written) and a BOOTP message
(unlinked). -/
theorem write_lease_end_exclusive_witness :
    write_lease mLeaseEndFirst = WriteLease.wrote ((msgBytes mLeaseEndFirst).take 240) ∧
    write_lease mBootpNoCookie = WriteLease.unlinked := by
  have h := write_lease_end_exclusive mLeaseEndFirst 0 (by decide) (by decide)
  exact ⟨h.1, h.2.2.2 mBootpNoCookie (by decide)⟩

/-- Counterexample for claim C4: a plain BOOTP reply without the magic
cookie, with matching xid and chaddr, is dropped at the cookie check
(src/dhcp.c line 2078, "bogus cookie") — the dispatcher never hands a
cookieless message to the state machine. -/
theorem dispatcher_bootp_cex :
    mBootpNoCookie.cookie ≠ MAGIC_COOKIE ∧ mBootpNoCookie.op = 2 ∧
    ctx4.xid = mBootpNoCookie.xid ∧
    (padTo 16 mBootpNoCookie.chaddr).take ctx4.hwlen = ctx4.hwaddr.take ctx4.hwlen ∧
    dhcp_handlepacket_check ctx4 mBootpNoCookie = DispatchResult.dropBogusCookie ∧
    dhcp_handlepacket_check ctx4 mBootpNoCookie ≠ DispatchResult.accepted := by decide

/-- Claim C4, amended: with matching xid and chaddr the dispatcher
accepts a frame exactly when its cookie equals `MAGIC_COOKIE`; the
"BOOTP, type 0" handling applies to messages that carry the cookie but
no readable message-type option. -/
theorem dispatcher_requires_cookie (ctx : DispatchCtx) (m : DhcpMessage)
    (hx : ctx.xid = m.xid)
    (hw : ¬(ctx.hwlen ≤ 16 ∧ (padTo 16 m.chaddr).take ctx.hwlen ≠ ctx.hwaddr.take ctx.hwlen)) :
    (dhcp_handlepacket_check ctx m = DispatchResult.accepted ↔ m.cookie = MAGIC_COOKIE) ∧
    (∀ m', get_option m' DHO_MESSAGETYPE = GetOpt.invalid ∨
      get_option m' DHO_MESSAGETYPE = GetOpt.notFound → msgtype m' = some 0) := by
  constructor
  · unfold dhcp_handlepacket_check
    by_cases hcook : m.cookie ≠ MAGIC_COOKIE
    · rw [if_pos hcook]
      exact ⟨fun h => DispatchResult.noConfusion h, fun h => absurd h hcook⟩
    · rw [if_neg hcook, if_neg (fun hne => hne hx), if_neg hw]
      exact ⟨fun _ => not_not.mp hcook, fun _ => rfl⟩
  · intro m' h'
    unfold msgtype
    rcases h' with h' | h' <;> rw [h']

/-- Witness for the amended C4: a cookie-bearing reply matching `ctx4`
is accepted, and the cookieless message's type defaults to 0. -/
theorem dispatcher_requires_cookie_witness :
    dhcp_handlepacket_check ctx4 mWithCookie = DispatchResult.accepted ∧
    mWithCookie.cookie = MAGIC_COOKIE ∧ msgtype mBootpNoCookie = some 0 := by
  have h := dispatcher_requires_cookie ctx4 mWithCookie (by decide) (by decide)
  exact ⟨h.1.mpr (by decide), by decide, h.2 mBootpNoCookie (Or.inl (by decide))⟩

/-- Counterexample for claim C5: an OFFER with invalid addresses
(`ciaddr = yiaddr = 0.0.0.0`) is a non-NAK message, yet handling it
leaves `nakoff` at 8 — the reset at src/dhcp.c line 1931 is reached
only after the required-options and address-validity checks pass. -/
theorem nakoff_reset_cex :
    msgtype mOfferBad = some DHCP_OFFER ∧ DHCP_OFFER ≠ DHCP_NAK ∧
    mOfferBad.ciaddr = INADDR_ANY ∧ mOfferBad.yiaddr = INADDR_ANY ∧
    stNak8.nakoff = 8 ∧
    (dhcp_handle cfgEmpty stNak8 mOfferBad).1.nakoff = 8 := by decide

theorem handleTail_nakoff (cfg : Cfg) (st : IfState) (pre : List Action) (consumed : Bool)
    (m : DhcpMessage) : (handleTail cfg st pre consumed m).1.nakoff = st.nakoff := by
  unfold handleTail
  cases consumed <;> cases hof : st.offer <;> simp [hof] <;> split_ifs <;> rfl

/-- Claim C5, amended: a NAK (passing the Server-ID requirement check)
schedules the restart after the current `nakoff` seconds and then
updates `nakoff` by `nakStep` (0 to 1, then doubling, capped at
`NAKOFF_MAX = 60`), so the delays of consecutive NAKs from 0 are
exactly 0, 1, 2, 4, 8, 16, 32, 60, 60, …; and a non-NAK message resets
`nakoff` to 0 provided it passes the required-options and
address-validity checks (a rejected message leaves `nakoff`
unchanged). -/
theorem dhcp_handle_nak_backoff (cfg : Cfg) (st : IfState) (m : DhcpMessage)
    (ht : msgtype m = some DHCP_NAK)
    (hs : ¬(cfg.requiremask.contains DHO_SERVERID = true ∧
      (get_option_addr m DHO_SERVERID).isNone = true)) :
    Action.schedStart st.nakoff ∈ (dhcp_handle cfg st m).2 ∧
    (dhcp_handle cfg st m).1.nakoff = nakStep st.nakoff ∧
    (∀ k, nakoffAfter k = if k = 0 then 0 else min (2^(k-1)) NAKOFF_MAX) ∧
    (∀ st' m' t', msgtype m' = some t' → t' ≠ DHCP_NAK →
      missingRequired cfg m' t' = false →
      ¬((t' = 0 ∨ t' = DHCP_OFFER ∨ t' = DHCP_ACK) ∧
        (m'.ciaddr = INADDR_ANY ∨ m'.ciaddr = INADDR_BROADCAST) ∧
        (m'.yiaddr = INADDR_ANY ∨ m'.yiaddr = INADDR_BROADCAST)) →
      (dhcp_handle cfg st' m').1.nakoff = 0) := by
  have hnak : dhcp_handle cfg st m =
      (let st0 := { st with interval := 0 }
       let st1 := if cfg.test = false then
           { st0 with oldm := none, newm := none, leaseAddr := 0 } else st0
       let st2 := if st1.nakoff = 0 then { st1 with nakoff := 1 }
         else { st1 with nakoff := min (st1.nakoff * 2) NAKOFF_MAX }
       (st2, [Action.logNak] ++
         (if cfg.test = false then [Action.dropNak, Action.unlinkLease] else []) ++
         [Action.closeSockets, Action.schedStart st1.nakoff])) := by
    unfold dhcp_handle
    simp only [ht, Option.getD_some]
    rw [if_pos trivial, if_neg hs]
  refine ⟨?_, ?_, ?_, ?_⟩
  · rw [hnak]
    by_cases htest : cfg.test = false <;> simp [htest]
  · rw [hnak]
    by_cases htest : cfg.test = false <;>
      by_cases hz : st.nakoff = 0 <;>
      simp [htest, hz, nakStep]
  · intro k
    induction k with
    | zero => rfl
    | succ k ihk =>
      rw [show nakoffAfter (k+1) = nakStep (nakoffAfter k) from rfl, ihk,
        if_neg (show k+1 ≠ 0 by omega)]
      simp only [Nat.add_sub_cancel]
      by_cases hk : k = 0
      · subst hk
        decide
      · rw [if_neg hk]
        have h1 : 1 ≤ 2^(k-1) := Nat.one_le_two_pow
        have h2 : (2:Nat)^k = 2^(k-1) * 2 := by
          conv_lhs => rw [show k = (k-1) + 1 by omega]
          rw [pow_succ]
        simp only [nakStep, NAKOFF_MAX]
        split_ifs with h3
        · omega
        · omega
  · intro st' m' t' ht' hne hreq hinv
    unfold dhcp_handle
    simp only [ht', Option.getD_some]
    rw [if_neg hne, if_neg (by simp [hreq]), if_neg hinv]
    split_ifs <;> simp [handleTail_nakoff]

/-- Witness for the amended C5: from `nakoff = 4` a NAK schedules the
restart in 4 seconds and doubles the backoff to 8. -/
theorem dhcp_handle_nak_backoff_witness :
    Action.schedStart 4 ∈ (dhcp_handle cfgEmpty { nakoff := 4 } mNak).2 ∧
    (dhcp_handle cfgEmpty { nakoff := 4 } mNak).1.nakoff = 8 := by
  have h := dhcp_handle_nak_backoff cfgEmpty { nakoff := 4 } mNak (by decide) (by decide)
  refine ⟨h.1, ?_⟩
  rw [h.2.1]
  decide

/-- Claim C10: an OFFER, ACK or BOOTP (type 0) message whose `ciaddr`
and `yiaddr` are both 0.0.0.0 or 255.255.255.255 is rejected by
`dhcp_handle` with no state change: the offer, the protocol state and
`nakoff` are untouched (only the retransmission counter `interval` is
zeroed, which happens at entry for every message), and no timer,
request, bind, probe or script action is emitted — the only action is
the reject log line (either the required-options reject or the
invalid-address reject, whichever fires first). -/
theorem dhcp_handle_reject_invalid_addr (cfg : Cfg) (st : IfState) (m : DhcpMessage) (t : Nat)
    (ht : msgtype m = some t) (h3 : t = 0 ∨ t = DHCP_OFFER ∨ t = DHCP_ACK)
    (hc : m.ciaddr = INADDR_ANY ∨ m.ciaddr = INADDR_BROADCAST)
    (hy : m.yiaddr = INADDR_ANY ∨ m.yiaddr = INADDR_BROADCAST) :
    (dhcp_handle cfg st m).1 = { st with interval := 0 } ∧
    ((dhcp_handle cfg st m).2 = [Action.logRejectDhcp] ∨
      (dhcp_handle cfg st m).2 = [Action.logRejectInvalidAddr]) ∧
    (dhcp_handle cfg st m).1.offer = st.offer ∧
    (dhcp_handle cfg st m).1.dstate = st.dstate ∧
    (dhcp_handle cfg st m).1.nakoff = st.nakoff ∧
    (∀ a ∈ (dhcp_handle cfg st m).2, (∀ d, a ≠ Action.schedStart d) ∧
      a ≠ Action.cancelAll ∧ a ≠ Action.cancelDiscover ∧ a ≠ Action.callRequest ∧
      a ≠ Action.callBind ∧ a ≠ Action.arpProbe ∧ a ≠ Action.runScript) := by
  have hne : t ≠ DHCP_NAK := by rcases h3 with rfl | rfl | rfl <;> decide
  have hmain : dhcp_handle cfg st m = ({ st with interval := 0 }, [Action.logRejectDhcp]) ∨
      dhcp_handle cfg st m = ({ st with interval := 0 }, [Action.logRejectInvalidAddr]) := by
    unfold dhcp_handle
    simp only [ht, Option.getD_some]
    rw [if_neg hne]
    by_cases hreq : missingRequired cfg m t = true
    · rw [if_pos hreq]
      exact Or.inl rfl
    · rw [if_neg hreq, if_pos ⟨h3, hc, hy⟩]
      exact Or.inr rfl
  rcases hmain with hmain | hmain <;>
    rw [hmain] <;>
    refine ⟨rfl, by simp, rfl, rfl, rfl, ?_⟩ <;>
    · intro a ha
      simp at ha
      subst ha
      exact ⟨fun d => by simp, by simp, by simp, by simp, by simp, by simp, by simp⟩

/-- Witness for C10 at a concrete input: an OFFER with zero addresses
arriving in state BOUND with `nakoff = 8`. -/
theorem dhcp_handle_reject_invalid_addr_witness :
    (dhcp_handle cfgEmpty stNak8 mOfferBad).1 = { stNak8 with interval := 0 } ∧
    (dhcp_handle cfgEmpty stNak8 mOfferBad).2 = [Action.logRejectInvalidAddr] := by
  have h := dhcp_handle_reject_invalid_addr cfgEmpty stNak8 mOfferBad DHCP_OFFER
    (by decide) (Or.inr (Or.inl rfl)) (Or.inl (by decide)) (Or.inl (by decide))
  refine ⟨h.1, ?_⟩
  rcases h.2.1 with h2 | h2
  · exact absurd h2 (by decide)
  · exact h2

end Dhcpcd
